import Mathlib

/-!
Verification of the MOLNS datastore (MolnsLib/molns_datastore/__init__.py) and the
container-wrapper IP polling loop (MolnsLib/Docker.py).

The persistence layer is embedded shallowly: each SQLAlchemy table is a list of row
records together with the next value of its id sequence; sessions and commits are
modelled by explicit state passing (each public operation returns the new state).
Python exceptions are modelled with `Except`: `PyErr.datastore` stands for
`DatastoreException` and `PyErr.typeError` for a built-in `TypeError` (which the
source's `except DatastoreException` handlers do not catch).

Where the source calls a function with keyword arguments, or a declarative-base row
constructor with keyword arguments, the keyword names used at the call site and the
names accepted by the callee are both transcribed, and the call is modelled as a
`TypeError` when a keyword does not match (Python semantics).
-/

/-- Python exceptions raised by the datastore paths: `DatastoreException` with its
message, or a built-in `TypeError` (bad keyword argument), which the source never
catches. -/
inductive PyErr where
  | datastore (msg : String)
  | typeError (msg : String)
deriving Repr, DecidableEq

/-- The three MOLNS object kinds of HANDLE_MAPPING. -/
inductive Kind where
  | Provider
  | Controller
  | WorkerGroup
deriving Repr, DecidableEq

def Kind.str : Kind → String
  | .Provider => "Provider"
  | .Controller => "Controller"
  | .WorkerGroup => "WorkerGroup"

/-- Whether the row class for this kind has a `provider_id` column
(Controller and WorkerGroup do; Provider does not). -/
def Kind.hasProviderCol : Kind → Bool
  | .Provider => false
  | .Controller => true
  | .WorkerGroup => true

/-- Whether the row class for this kind has a `controller_id` column
(only WorkerGroup does). -/
def Kind.hasControllerCol : Kind → Bool
  | .Provider => false
  | .Controller => false
  | .WorkerGroup => true

/-- `VALID_PROVIDER_TYPES` from the source. -/
def VALID_PROVIDER_TYPES : List String := ["OpenStack", "EC2", "Eucalyptus", "Docker"]

/-- An entity row of the providers / controllers / worker_groups tables.
Provider rows have no provider_id or controller_id column; for kind Provider these
two fields stay `none` (the save path only writes them through columns that exist,
see `applyRefUpdates`). -/
structure EntityRow where
  id : Nat
  type : String
  name : String
  provider_id : Option Nat := none
  controller_id : Option Nat := none
deriving Repr, DecidableEq

/-- A key/value extension row of the provider_data / controller_data /
worker_group_data side tables. -/
structure DataRow where
  id : Nat
  parent_id : Nat
  name : String
  value : String
deriving Repr, DecidableEq

/-- A row of the instances table. -/
structure InstanceRow where
  id : Nat
  type : Option String := none
  controller_id : Option Nat := none
  worker_group_id : Option Nat := none
  provider_id : Option Nat := none
  ip_address : Option String := none
  provider_instance_identifier : Option String := none
deriving Repr, DecidableEq

/-- A row of the remote_hosts table. -/
structure RemoteHostRow where
  id : Nat
  ip_address : String
  username : String
  secret_key_file : String
  port : Nat
  remote_host_id : Nat
deriving Repr, DecidableEq

/-- A row of the remote_jobs table. -/
structure RemoteJobRow where
  id : Nat
  input_file : String
  remote_host_id : Nat
  date : String
  remote_job_id : Nat
deriving Repr, DecidableEq

/-- One kind's entity table plus its key/value side table, each with the next value
of its id sequence (SQLite rowids start at 1 and are assigned on insert). -/
structure KindStore where
  entities : List EntityRow := []
  entNext : Nat := 1
  datas : List DataRow := []
  dataNext : Nat := 1
deriving Repr, DecidableEq

/-- The whole datastore state (all tables of the sqlite file). -/
structure DB where
  provider : KindStore := {}
  controller : KindStore := {}
  workerGroup : KindStore := {}
  instances : List InstanceRow := []
  instNext : Nat := 1
  remoteHosts : List RemoteHostRow := []
  remoteHostNext : Nat := 1
  remoteJobs : List RemoteJobRow := []
  remoteJobNext : Nat := 1
deriving Repr, DecidableEq

def DB.store (db : DB) : Kind → KindStore
  | Kind.Provider => db.provider
  | Kind.Controller => db.controller
  | Kind.WorkerGroup => db.workerGroup

def DB.setStore (db : DB) : Kind → KindStore → DB
  | Kind.Provider, s => { db with provider := s }
  | Kind.Controller, s => { db with controller := s }
  | Kind.WorkerGroup, s => { db with workerGroup := s }

/-!  A Python dict of strings, as an insertion-ordered association list.  Values
built by the code below always have duplicate-free keys (the dict invariant);
theorems state that hypothesis where they rely on it. -/

abbrev Dict := List (String × String)

def dictKeys (d : Dict) : List String := d.map Prod.fst

def dictLookup (d : Dict) (k : String) : Option String :=
  match d.find? (fun p => p.1 == k) with
  | some p => some p.2
  | none => none

/-- `del d[k]` (with unique keys, removing every pair with key `k` is removing
the one pair). -/
def dictErase (d : Dict) (k : String) : Dict :=
  d.filter (fun p => !(p.1 == k))

/-- `d[k] = v`: overwrite the value in place when the key is present, append
otherwise. -/
def dictInsert (d : Dict) (k v : String) : Dict :=
  if (d.find? (fun p => p.1 == k)).isSome then
    d.map (fun p => if p.1 == k then (k, v) else p)
  else
    d ++ [(k, v)]

/-- An in-memory configuration object (instance of a concrete provider-handle
class such as DockerProvider).  `config` is the key/value attribute bag;
`provider_id`/`controller_id` model the attributes of the same names, with `none`
meaning the attribute is not in the object's `__dict__` (the save path tests
membership before reading); `provider`/`controller` are hydrated back-references. -/
inductive Config where
  | mk (name : String) (type : String) (config : Dict)
      (provider_id : Option (Option Nat)) (controller_id : Option (Option Nat))
      (provider : Option Config) (controller : Option Config)

def Config.name : Config → String
  | .mk n _ _ _ _ _ _ => n

def Config.type : Config → String
  | .mk _ t _ _ _ _ _ => t

def Config.config : Config → Dict
  | .mk _ _ c _ _ _ _ => c

def Config.provider_id : Config → Option (Option Nat)
  | .mk _ _ _ p _ _ _ => p

def Config.controller_id : Config → Option (Option Nat)
  | .mk _ _ _ _ c _ _ => c

def Config.provider : Config → Option Config
  | .mk _ _ _ _ _ p _ => p

def Config.controller : Config → Option Config
  | .mk _ _ _ _ _ _ c => c

def Config.setProvider : Config → Option Config → Config
  | .mk n t c pi ci _ cr, pr => .mk n t c pi ci pr cr

def Config.setController : Config → Option Config → Config
  | .mk n t c pi ci pr _, cr => .mk n t c pi ci pr cr

/-! ### List helpers (mutating the first matching row of a table in place) -/

/-- Replace the first element satisfying `p` by its image under `f`
(SQLAlchemy mutates the fetched row object in place). -/
def updateFirst (p : α → Bool) (f : α → α) : List α → List α
  | [] => []
  | x :: xs => if p x then f x :: xs else x :: updateFirst p f xs

/-! ### The save path (`Datastore.__save_molns_object`) -/

/-- The two conditional reference updates of `__save_molns_object`: each attribute
present on the config object is assigned to the row; the assignment reaches the
database only through a column that exists on the row class (assigning to a
Provider row's nonexistent `provider_id` is a transient Python attribute, invisible
to persistence). -/
def applyRefUpdates (kind : Kind) (cfg : Config) (p : EntityRow) : EntityRow :=
  let p1 := match cfg.provider_id with
    | some v => if kind.hasProviderCol then { p with provider_id := v } else p
    | none => p
  match cfg.controller_id with
  | some v => if kind.hasControllerCol then { p1 with controller_id := v } else p1
  | none => p1

/-- The extension-row diff loop of `__save_molns_object`: walk the side table in
order; a row of this parent whose key is still pending gets its value overwritten
(and the key is removed from the pending dict), a row of this parent whose key is
not pending is deleted, other parents' rows pass through.  Returns the surviving
rows and the leftover pending dict. -/
def diffRows (pid : Nat) : Dict → List DataRow → List DataRow × Dict
  | data, [] => ([], data)
  | data, r :: rs =>
    if r.parent_id = pid then
      match dictLookup data r.name with
      | some v =>
        ({ r with value := v } :: (diffRows pid (dictErase data r.name) rs).1,
         (diffRows pid (dictErase data r.name) rs).2)
      | none => diffRows pid data rs
    else
      (r :: (diffRows pid data rs).1, (diffRows pid data rs).2)

/-- The trailing insert loop of `__save_molns_object`: each leftover key/value
pair becomes a fresh side-table row with the next sequence id. -/
def mkNewRows (pid : Nat) (next : Nat) : Dict → List DataRow
  | [] => []
  | (k, v) :: rest => { id := next, parent_id := pid, name := k, value := v } :: mkNewRows pid (next + 1) rest

/-- Second half of `__save_molns_object`: diff the config's key/value mapping
against the side table of parent `pid`, then insert the leftover keys. -/
def finishSave (s : KindStore) (cfg : Config) (pid : Nat) : KindStore :=
  let res := diffRows pid cfg.config s.datas
  { s with datas := res.1 ++ mkNewRows pid s.dataNext res.2,
           dataNext := s.dataNext + res.2.length }

/-- `Datastore.__save_molns_object` on one kind's store: fetch the entity row by
name; insert a fresh row (with the config's name and type) when absent, otherwise
mutate the fetched row in place via the reference updates (`type` is never
reassigned on the existing row); then diff the extension mapping. -/
def saveKS (kind : Kind) (s : KindStore) (cfg : Config) : KindStore :=
  match s.entities.find? (fun r => r.name == cfg.name) with
  | some p0 =>
    let p := applyRefUpdates kind cfg p0
    let s1 := { s with entities := updateFirst (fun r => r.name == cfg.name) (applyRefUpdates kind cfg) s.entities }
    finishSave s1 cfg p.id
  | none =>
    let p := applyRefUpdates kind cfg { id := s.entNext, type := cfg.type, name := cfg.name }
    let s1 := { s with entities := s.entities ++ [p], entNext := s.entNext + 1 }
    finishSave s1 cfg p.id

/-- `Datastore.save_object` for the HANDLE_MAPPING kinds (the source returns
`None` on this path; the new datastore state is the result). -/
def save_object (db : DB) (cfg : Config) (kind : Kind) : DB :=
  db.setStore kind (saveKS kind (db.store kind) cfg)

/-! ### The hydration path (`Datastore._get_object_data` and the getters) -/

/-- The dict comprehension of `_get_object_data`: `data[d.name] = d.value` over the
side-table rows of this parent, in table order. -/
def buildDict (rows : List DataRow) : Dict :=
  rows.foldl (fun d r => dictInsert d r.name r.value) []

/-- The core of `_get_object_data` before the back-reference blocks: collect the
key/value rows of the parent, resolve the concrete handle by the row's stored type
(`get_provider_handle` raises for a type outside VALID_PROVIDER_TYPES), and build
the configuration object.  Modelled from the spec: the concrete handle classes
(the per-provider-type modules) are not part of the sources; per section 4.3 the
constructor seeds the object with the row's name, resolved type and the mapping. -/
def hydrate_core (s : KindStore) (p : EntityRow) : Except PyErr Config :=
  let data := buildDict (s.datas.filter (fun r => r.parent_id == p.id))
  if p.type ∈ VALID_PROVIDER_TYPES then
    .ok (Config.mk p.name p.type data none none none none)
  else
    .error (.datastore ("Unknown type " ++ p.type))

/-- Parameter names of `Datastore.get_object_by_id(self, obj_id, kind)`. -/
def get_object_by_id_params : List String := ["obj_id", "kind"]

/-- Keyword names used at the back-reference call sites inside `_get_object_data`:
`self.get_object_by_id(id=..., kind=...)`. -/
def backref_call_kwargs : List String := ["id", "kind"]

/-- One back-reference block of `_get_object_data`: the call
`self.get_object_by_id(id=..., kind=...)` wrapped in `try/except
DatastoreException`, which maps a failed lookup to an absent back-reference.
Python binds keyword arguments by parameter name, so a keyword outside the
callee's parameter list raises `TypeError` before the lookup runs (and `TypeError`
is not caught by the `except DatastoreException` handler). -/
def resolve_backref (lookup : Except PyErr Config) : Except PyErr (Option Config) :=
  if backref_call_kwargs.all (fun k => get_object_by_id_params.contains k) then
    match lookup with
    | .ok c => .ok (some c)
    | .error (.datastore _) => .ok none
    | .error e => .error e
  else
    .error (.typeError "get_object_by_id got an unexpected keyword argument id")

/-- `get_object_by_id` restricted to kind Provider (Provider rows have no
back-reference columns, so their hydration is `hydrate_core`).  `oid` is the raw
`provider_id` value; a null id matches no row. -/
def get_provider_by_id (db : DB) (oid : Option Nat) : Except PyErr Config :=
  match db.provider.entities.find? (fun r => some r.id == oid) with
  | none => .error (.datastore "Provider not found")
  | some p => hydrate_core db.provider p

/-- `get_object_by_id` restricted to kind Controller: hydrate the row, then run the
provider back-reference block (Controller rows carry a `provider_id` column). -/
def get_controller_by_id (db : DB) (oid : Option Nat) : Except PyErr Config :=
  match db.controller.entities.find? (fun r => some r.id == oid) with
  | none => .error (.datastore "Controller not found")
  | some p =>
    match hydrate_core db.controller p with
    | .error e => .error e
    | .ok c =>
      match resolve_backref (get_provider_by_id db p.provider_id) with
      | .error e => .error e
      | .ok pr => .ok (c.setProvider pr)

/-- `Datastore._get_object_data`: hydrate the core object, then run each
back-reference block whose guard (`provider_id` / `controller_id` in the row
object's `__dict__`, i.e. a column of the row class) holds. -/
def get_object_data (db : DB) (kind : Kind) (p : EntityRow) : Except PyErr Config :=
  match hydrate_core (db.store kind) p with
  | .error e => .error e
  | .ok c0 =>
    match (if kind.hasProviderCol then
             match resolve_backref (get_provider_by_id db p.provider_id) with
             | .error e => .error e
             | .ok pr => .ok (c0.setProvider pr)
           else .ok c0 : Except PyErr Config) with
    | .error e => .error e
    | .ok c1 =>
      if kind.hasControllerCol then
        match resolve_backref (get_controller_by_id db p.controller_id) with
        | .error e => .error e
        | .ok cr => .ok (c1.setController cr)
      else .ok c1

/-- `Datastore.get_object`: fetch the entity row by name, fail with
`DatastoreException` when absent, hydrate otherwise. -/
def get_object (db : DB) (nm : String) (kind : Kind) : Except PyErr Config :=
  match (db.store kind).entities.find? (fun r => r.name == nm) with
  | none => .error (.datastore (kind.str ++ " " ++ nm ++ " not found"))
  | some p => get_object_data db kind p

/-- `Datastore.get_object_by_id` on the HANDLE_MAPPING kinds
(`__get_molns_object_by_id`). -/
def get_object_by_id (db : DB) (oid : Option Nat) (kind : Kind) : Except PyErr Config :=
  match (db.store kind).entities.find? (fun r => some r.id == oid) with
  | none => .error (.datastore (kind.str ++ " not found"))
  | some p => get_object_data db kind p

/-- `Datastore.create_object`: fail when a row with this name is already
persisted; otherwise resolve the concrete handle (failing for an unknown provider
type) and return a fresh in-memory object, not persisted.  Modelled from the
spec: the handle classes are outside the sources; per section 4.3 the constructor
seeds the object with the name and the resolved type, and `create_object` then
sets `provider_id`/`controller_id` from its keyword arguments when passed. -/
def create_object (db : DB) (ptype nm : String) (kind : Kind)
    (provider_id controller_id : Option (Option Nat)) : Except PyErr Config :=
  match (db.store kind).entities.find? (fun r => r.name == nm) with
  | some _ => .error (.datastore (kind.str ++ " " ++ nm ++ " already exists with type"))
  | none =>
    if ptype ∈ VALID_PROVIDER_TYPES then
      .ok (Config.mk nm ptype [] provider_id controller_id none none)
    else
      .error (.datastore ("Unknown " ++ kind.str ++ " type " ++ ptype))

/-- `Datastore.delete_object`: fetch by name, fail when absent, else delete
exactly that entity row (the side table is not touched). -/
def delete_object (db : DB) (nm : String) (kind : Kind) : Except PyErr DB :=
  match (db.store kind).entities.find? (fun r => r.name == nm) with
  | none => .error (.datastore (kind.str ++ " " ++ nm ++ " not found"))
  | some _ =>
    .ok (db.setStore kind
      { db.store kind with entities := (db.store kind).entities.eraseP (fun r => r.name == nm) })

/-- `Datastore.delete_object_by_id` on the HANDLE_MAPPING kinds (the source also
accepts the remote-execution kinds; those tables have no side table and are not
needed by the claims below). -/
def delete_object_by_id (db : DB) (oid : Nat) (kind : Kind) : Except PyErr DB :=
  match (db.store kind).entities.find? (fun r => r.id == oid) with
  | none => .error (.datastore (kind.str ++ " not found"))
  | some _ =>
    .ok (db.setStore kind
      { db.store kind with entities := (db.store kind).entities.eraseP (fun r => r.id == oid) })

/-! ### Instances (`Datastore.get_all_instances`) -/

/-- `Datastore.get_all_instances`: the source tests `provider_id`, then
`controller_id`, then `worker_group_id` against `None` in that order and issues a
single `filter_by` on the first non-null one. -/
def get_all_instances (db : DB) (provider_id controller_id worker_group_id : Option Nat) :
    List InstanceRow :=
  match provider_id with
  | some _ => db.instances.filter (fun i => i.provider_id == provider_id)
  | none =>
    match controller_id with
    | some _ => db.instances.filter (fun i => i.controller_id == controller_id)
    | none =>
      match worker_group_id with
      | some _ => db.instances.filter (fun i => i.worker_group_id == worker_group_id)
      | none => db.instances

/-! ### Remote-execution sub-store (`Datastore.__save_remote_execution_object`) -/

/-- Modelled from the spec: the RemoteHost configuration class lives in
MolnsLib.remote_execution, which is not among the sources; fields follow the
RemoteHost entity of section 3 (`id` is the configuration's own identifier,
persisted into the row's `remote_host_id` column). -/
structure RemoteHostCfg where
  id : Nat
  ip_address : String
  port : Nat
  username : String
  secret_key_file : String
deriving Repr, DecidableEq

/-- Modelled from the spec: the RemoteJob configuration class lives in
MolnsLib.remote_execution, which is not among the sources; fields follow the
RemoteJob entity of section 3 plus the embedded `remote_host` reference and the
`controller_id` attribute the save path reads. -/
structure RemoteJobCfg where
  id : Nat
  input_file : String
  date : String
  controller_id : Option Nat
  remote_host : RemoteHostCfg
deriving Repr, DecidableEq

/-- Column names of the RemoteJob row class (its declarative-base constructor
accepts exactly these as keyword arguments and raises `TypeError` otherwise). -/
def remote_job_row_columns : List String :=
  ["id", "input_file", "remote_host_id", "date", "remote_job_id"]

/-- Keyword names `__save_remote_execution_object` passes to the RemoteJob row
constructor. -/
def save_remote_job_ctor_kwargs : List String :=
  ["input_file", "remote_host_id", "controller_id", "date", "remote_job_id"]

/-- `__get_remote_execution_object_by_id` for kind RemoteHost.  (For the string
kind, `kind is RemoteJob` is always false, so the RemoteHost branch is the one
taken.)  Modelled from the spec for the configuration constructor, as above. -/
def get_remote_host_by_id (db : DB) (oid : Nat) : Except PyErr RemoteHostCfg :=
  match db.remoteHosts.find? (fun r => r.id == oid) with
  | none => .error (.datastore "RemoteHost not found")
  | some p => .ok { id := p.remote_host_id, ip_address := p.ip_address, port := p.port,
                    username := p.username, secret_key_file := p.secret_key_file }

/-- `Datastore.__save_remote_execution_object` for kind RemoteJob: construct a
RemoteJob row (the constructor is given the keyword `controller_id`, which is not
a RemoteJob column), add it, ensure the referenced RemoteHost row exists
(inserting a copy when the lookup raises `DatastoreException`), commit, and
return the new row id. -/
def save_remote_job (db : DB) (cfg : RemoteJobCfg) : Except PyErr (DB × Nat) :=
  if save_remote_job_ctor_kwargs.all (fun k => remote_job_row_columns.contains k) then
    let row : RemoteJobRow :=
      { id := db.remoteJobNext, input_file := cfg.input_file,
        remote_host_id := cfg.remote_host.id, date := cfg.date, remote_job_id := cfg.id }
    let db1 := { db with remoteJobs := db.remoteJobs ++ [row], remoteJobNext := db.remoteJobNext + 1 }
    let db2 :=
      match get_remote_host_by_id db1 cfg.remote_host.id with
      | .ok _ => db1
      | .error _ =>
        { db1 with
          remoteHosts := db1.remoteHosts ++
            [{ id := db1.remoteHostNext, ip_address := cfg.remote_host.ip_address,
               username := cfg.remote_host.username,
               secret_key_file := cfg.remote_host.secret_key_file,
               port := cfg.remote_host.port, remote_host_id := cfg.remote_host.id }],
          remoteHostNext := db1.remoteHostNext + 1 }
    .ok (db2, row.id)
  else
    .error (.typeError "controller_id is an invalid keyword argument for RemoteJob")

/-! ### Docker.get_container_ip_address -/

/-- Python `ip_address.startswith("1")`: with a one-character prefix this is
exactly the test that the first character is the digit 1. -/
def startsWith1 (s : String) : Bool :=
  match s.data with
  | [] => false
  | ch :: _ => ch == Char.ofNat 49

/-- The while loop of `Docker.get_container_ip_address`.  The source calls
`inspect_container` once, before the loop; every iteration re-reads the same
inspection result, so the address checked never changes; the loop breaks exactly
when it starts with "1" (the sleep while it is empty has no observable effect on
the result).  `fuel` bounds the number of iterations we observe; `none` means the
loop has not terminated within `fuel` iterations. -/
def get_container_ip_address_loop (ip_address : String) : Nat → Option String
  | 0 => none
  | fuel + 1 =>
    if startsWith1 ip_address then some ip_address
    else get_container_ip_address_loop ip_address fuel

/-- `Docker.get_container_ip_address`: `inspect_container n` is the address the
container runtime would report at the n-th inspection; the source performs only
inspection 0. -/
def get_container_ip_address (inspect_container : Nat → String) (fuel : Nat) : Option String :=
  get_container_ip_address_loop (inspect_container 0) fuel

/-! ### Concrete datastore states used as test inputs -/

/-- A freshly initialized datastore (all tables created empty). -/
def dbEmpty : DB := {}

/-- A datastore holding one persisted Provider named x of type EC2. -/
def dbC3 : DB :=
  { provider := { entities := [{ id := 1, type := "EC2", name := "x" }], entNext := 2 } }

/-- The in-memory configuration object for name x with type OpenStack. -/
def cfgC3 : Config := Config.mk "x" "OpenStack" [] none none none none

/-- A WorkerGroup configuration object carrying both parent-reference ids. -/
def cfgC3w : Config := Config.mk "z" "Docker" [] (some (some 3)) (some (some 4)) none none

/-- A datastore holding one persisted Controller whose provider_id 99 is dangling
(no Provider row exists). -/
def dbC4 : DB :=
  { controller :=
      { entities := [{ id := 1, type := "Docker", name := "c1", provider_id := some 99 }],
        entNext := 2 } }

/-- A datastore holding one persisted WorkerGroup. -/
def dbC6 : DB :=
  { workerGroup :=
      { entities := [{ id := 1, type := "Docker", name := "wg", provider_id := some 5,
                       controller_id := some 7 }],
        entNext := 2 } }

/-- A datastore holding one persisted Provider p1 with one extension row k=v. -/
def dbC6w : DB :=
  { provider :=
      { entities := [{ id := 1, type := "Docker", name := "p1" }], entNext := 2,
        datas := [{ id := 1, parent_id := 1, name := "k", value := "v" }], dataNext := 2 } }

/-- A datastore holding one persisted Provider x with extension mapping a=1, b=2. -/
def dbC1 : DB :=
  { provider :=
      { entities := [{ id := 1, type := "Docker", name := "x" }], entNext := 2,
        datas := [{ id := 1, parent_id := 1, name := "a", value := "1" },
                  { id := 2, parent_id := 1, name := "b", value := "2" }],
        dataNext := 3 } }

/-- A RemoteJob configuration object (its RemoteHost not persisted anywhere). -/
def rjCfg : RemoteJobCfg :=
  { id := 11, input_file := "in.xml", date := "2016-01-01", controller_id := none,
    remote_host := { id := 7, ip_address := "10.0.0.5", port := 22, username := "ubuntu",
                     secret_key_file := "key.pem" } }

/-- A container-runtime trace: the address is empty at the inspection performed at
call time and a private-network address is reported from the next inspection on. -/
def inspectC9 : Nat → String := fun n => if n = 0 then "" else "172.17.0.2"

/-! ### Dictionary lemmas -/

/-- The Python dict invariant: keys are pairwise distinct. -/
def keysNodup (d : Dict) : Prop := (dictKeys d).Nodup

theorem dictLookup_cons (p : String × String) (d : Dict) (k : String) :
    dictLookup (p :: d) k = if p.1 = k then some p.2 else dictLookup d k := by
  by_cases h : p.1 = k
  · simp [dictLookup, List.find?_cons, h]
  · simp [dictLookup, List.find?_cons, h]

theorem dictErase_cons (p : String × String) (d : Dict) (k : String) :
    dictErase (p :: d) k = if p.1 = k then dictErase d k else p :: dictErase d k := by
  by_cases h : p.1 = k
  · simp [dictErase, List.filter_cons, h]
  · simp [dictErase, List.filter_cons, h]

theorem dictLookup_mem {d : Dict} {k v : String} (h : dictLookup d k = some v) : (k, v) ∈ d := by
  induction d with
  | nil => simp [dictLookup] at h
  | cons p rest ih =>
    rw [dictLookup_cons] at h
    by_cases hp : p.1 = k
    · rw [if_pos hp] at h
      obtain ⟨p1, p2⟩ := p
      simp only [Option.some.injEq] at h
      simp only at hp
      rw [List.mem_cons]
      exact Or.inl (by rw [hp, h])
    · rw [if_neg hp] at h
      exact List.mem_cons_of_mem _ (ih h)

theorem mem_dictKeys_of_lookup {d : Dict} {k v : String} (h : dictLookup d k = some v) :
    k ∈ dictKeys d := by
  have hm := dictLookup_mem h
  exact List.mem_map_of_mem Prod.fst hm

theorem lookup_isSome_of_mem_keys {d : Dict} {k : String} (h : k ∈ dictKeys d) :
    (dictLookup d k).isSome = true := by
  induction d with
  | nil => simp [dictKeys] at h
  | cons p rest ih =>
    rw [dictLookup_cons]
    by_cases hp : p.1 = k
    · simp [hp]
    · rw [if_neg hp]
      apply ih
      simp [dictKeys] at h ⊢
      rcases h with h | h
      · exact absurd h.symm hp
      · exact h

theorem dictLookup_dictErase_self (d : Dict) (k : String) :
    dictLookup (dictErase d k) k = none := by
  induction d with
  | nil => rfl
  | cons p rest ih =>
    rw [dictErase_cons]
    by_cases hp : p.1 = k
    · rw [if_pos hp]; exact ih
    · rw [if_neg hp, dictLookup_cons, if_neg hp]; exact ih

theorem dictLookup_dictErase_ne {k k2 : String} (d : Dict) (h : k2 ≠ k) :
    dictLookup (dictErase d k) k2 = dictLookup d k2 := by
  induction d with
  | nil => rfl
  | cons p rest ih =>
    rw [dictErase_cons]
    by_cases hp : p.1 = k
    · rw [if_pos hp, dictLookup_cons, if_neg (by rw [hp]; exact fun hh => h hh.symm), ih]
    · rw [if_neg hp, dictLookup_cons, dictLookup_cons, ih]

theorem mem_of_mem_dictErase {d : Dict} {k : String} {kv : String × String}
    (h : kv ∈ dictErase d k) : kv ∈ d :=
  List.mem_of_mem_filter h

theorem ne_of_mem_dictErase {d : Dict} {k : String} {kv : String × String}
    (h : kv ∈ dictErase d k) : kv.1 ≠ k := by
  have := List.of_mem_filter h
  simpa using this

theorem mem_dictErase_of_ne {d : Dict} {k : String} {kv : String × String}
    (h : kv ∈ d) (hne : kv.1 ≠ k) : kv ∈ dictErase d k := by
  apply List.mem_filter_of_mem h
  simpa using hne

theorem keys_dictErase_subset {d : Dict} {k x : String} (h : x ∈ dictKeys (dictErase d k)) :
    x ∈ dictKeys d := by
  simp only [dictKeys, List.mem_map] at h ⊢
  obtain ⟨kv, hkv, hx⟩ := h
  exact ⟨kv, mem_of_mem_dictErase hkv, hx⟩

theorem keysNodup_dictErase {d : Dict} (k : String) (h : keysNodup d) :
    keysNodup (dictErase d k) := by
  induction d with
  | nil => exact h
  | cons p rest ih =>
    have hh : keysNodup rest := (List.nodup_cons.mp h).2
    rw [dictErase_cons]
    by_cases hp : p.1 = k
    · rw [if_pos hp]; exact ih hh
    · rw [if_neg hp]
      refine List.nodup_cons.mpr ⟨?_, ih hh⟩
      intro hcon
      exact (List.nodup_cons.mp h).1 (keys_dictErase_subset hcon)

theorem dictLookup_eq_some_of_mem_nodup {d : Dict} {k v : String}
    (h : keysNodup d) (hm : (k, v) ∈ d) : dictLookup d k = some v := by
  induction d with
  | nil => simp at hm
  | cons p rest ih =>
    rw [dictLookup_cons]
    rcases List.mem_cons.mp hm with heq | hmem
    · rw [if_pos (by rw [← heq])]
      rw [← heq]
    · have hk : k ∈ dictKeys rest := List.mem_map_of_mem Prod.fst hmem
      have hne : p.1 ≠ k := by
        intro hcon
        exact (List.nodup_cons.mp h).1 (hcon ▸ hk)
      rw [if_neg hne]
      exact ih (List.nodup_cons.mp h).2 hmem

theorem dictKeys_overwrite (k v : String) (d : Dict) :
    dictKeys (d.map (fun p => if p.1 == k then (k, v) else p)) = dictKeys d := by
  induction d with
  | nil => rfl
  | cons p rest ih =>
    have hhead : (if p.1 == k then (k, v) else p).1 = p.1 := by
      by_cases hp : p.1 = k
      · simp [hp]
      · simp [hp]
    simp only [dictKeys, List.map_cons] at ih ⊢
    rw [hhead, ih]

theorem lookup_isSome_iff_mem_keys {d : Dict} {k : String} :
    ((d.find? (fun p => p.1 == k)).isSome = true) ↔ k ∈ dictKeys d := by
  constructor
  · intro h
    rcases Option.isSome_iff_exists.mp h with ⟨p, hp⟩
    have h1 := List.find?_some hp
    have h2 := List.mem_of_find?_eq_some hp
    have : p.1 = k := by simpa using h1
    exact this ▸ List.mem_map_of_mem Prod.fst h2
  · intro h
    have := lookup_isSome_of_mem_keys h
    unfold dictLookup at this
    cases hf : d.find? (fun p => p.1 == k) with
    | none => rw [hf] at this; simp at this
    | some p => simp

theorem dictKeys_dictInsert_of_mem {d : Dict} {k : String} (v : String)
    (h : k ∈ dictKeys d) : dictKeys (dictInsert d k v) = dictKeys d := by
  unfold dictInsert
  rw [if_pos (lookup_isSome_iff_mem_keys.mpr h)]
  exact dictKeys_overwrite k v d

theorem dictInsert_of_not_mem {d : Dict} {k : String} (v : String)
    (h : k ∉ dictKeys d) : dictInsert d k v = d ++ [(k, v)] := by
  unfold dictInsert
  rw [if_neg]
  intro hcon
  exact h (lookup_isSome_iff_mem_keys.mp hcon)

theorem keysNodup_dictInsert {d : Dict} (k v : String) (h : keysNodup d) :
    keysNodup (dictInsert d k v) := by
  by_cases hk : k ∈ dictKeys d
  · unfold keysNodup
    rw [dictKeys_dictInsert_of_mem v hk]
    exact h
  · unfold keysNodup
    rw [dictInsert_of_not_mem v hk]
    unfold dictKeys
    rw [List.map_append]
    rw [List.nodup_append]
    refine ⟨h, List.nodup_singleton k, ?_⟩
    intro x hx hx2
    simp at hx2
    exact hk (hx2 ▸ hx)

theorem keysNodup_foldl_dictInsert (rows : List DataRow) :
    ∀ d : Dict, keysNodup d →
      keysNodup (rows.foldl (fun d r => dictInsert d r.name r.value) d) := by
  induction rows with
  | nil => intro d h; exact h
  | cons r rest ih =>
    intro d h
    exact ih _ (keysNodup_dictInsert r.name r.value h)

theorem keysNodup_buildDict (rows : List DataRow) : keysNodup (buildDict rows) :=
  keysNodup_foldl_dictInsert rows [] List.nodup_nil

/-! ### List helper lemmas -/

theorem updateFirst_length (p : α → Bool) (f : α → α) (l : List α) :
    (updateFirst p f l).length = l.length := by
  induction l with
  | nil => rfl
  | cons x xs ih =>
    unfold updateFirst
    by_cases hx : p x
    · rw [if_pos hx]; rfl
    · rw [if_neg hx]; simpa using ih

theorem updateFirst_id_of_find? {p : α → Bool} {f : α → α} {l : List α} {a : α}
    (h : l.find? p = some a) (hf : f a = a) : updateFirst p f l = l := by
  induction l with
  | nil => simp at h
  | cons x xs ih =>
    unfold updateFirst
    by_cases hx : p x
    · rw [if_pos hx]
      rw [List.find?_cons_of_pos _ hx] at h
      have : x = a := by simpa using h
      rw [this, hf]
    · rw [if_neg hx]
      rw [List.find?_cons_of_neg _ hx] at h
      rw [ih h]

theorem find?_updateFirst_self {p : α → Bool} {f : α → α} {l : List α} {a : α}
    (h : l.find? p = some a) (hfa : p (f a) = true) :
    (updateFirst p f l).find? p = some (f a) := by
  induction l with
  | nil => simp at h
  | cons x xs ih =>
    unfold updateFirst
    by_cases hx : p x
    · rw [if_pos hx]
      rw [List.find?_cons_of_pos _ hx] at h
      have hxa : x = a := by simpa using h
      rw [hxa]
      exact List.find?_cons_of_pos _ hfa
    · rw [if_neg hx]
      rw [List.find?_cons_of_neg _ hx] at h
      rw [List.find?_cons_of_neg _ hx]
      exact ih h

theorem find?_append_none {p : α → Bool} {l1 : List α} (l2 : List α)
    (h : l1.find? p = none) : (l1 ++ l2).find? p = l2.find? p := by
  induction l1 with
  | nil => rfl
  | cons x xs ih =>
    by_cases hx : p x
    · rw [List.find?_cons_of_pos _ hx] at h; simp at h
    · rw [List.find?_cons_of_neg _ hx] at h
      rw [List.cons_append, List.find?_cons_of_neg _ hx]
      exact ih h

theorem eraseP_succ_length {p : α → Bool} {l : List α} {a : α}
    (h : l.find? p = some a) : (l.eraseP p).length + 1 = l.length := by
  induction l with
  | nil => simp at h
  | cons x xs ih =>
    by_cases hx : p x
    · rw [List.eraseP_cons_of_pos hx]; rfl
    · rw [List.find?_cons_of_neg _ hx] at h
      rw [List.eraseP_cons_of_neg hx]
      simp only [List.length_cons]
      rw [← ih h]

/-! ### applyRefUpdates lemmas -/

theorem applyRefUpdates_id (kind : Kind) (cfg : Config) (p : EntityRow) :
    (applyRefUpdates kind cfg p).id = p.id := by
  unfold applyRefUpdates
  cases cfg.provider_id <;> cases cfg.controller_id <;>
    cases kind.hasProviderCol <;> cases kind.hasControllerCol <;> simp

theorem applyRefUpdates_name (kind : Kind) (cfg : Config) (p : EntityRow) :
    (applyRefUpdates kind cfg p).name = p.name := by
  unfold applyRefUpdates
  cases cfg.provider_id <;> cases cfg.controller_id <;>
    cases kind.hasProviderCol <;> cases kind.hasControllerCol <;> simp

theorem applyRefUpdates_type (kind : Kind) (cfg : Config) (p : EntityRow) :
    (applyRefUpdates kind cfg p).type = p.type := by
  unfold applyRefUpdates
  cases cfg.provider_id <;> cases cfg.controller_id <;>
    cases kind.hasProviderCol <;> cases kind.hasControllerCol <;> simp

theorem applyRefUpdates_idem (kind : Kind) (cfg : Config) (p : EntityRow) :
    applyRefUpdates kind cfg (applyRefUpdates kind cfg p) = applyRefUpdates kind cfg p := by
  unfold applyRefUpdates
  cases cfg.provider_id <;> cases cfg.controller_id <;>
    cases kind.hasProviderCol <;> cases kind.hasControllerCol <;> simp

/-! ### diffRows unfolding lemmas -/

theorem dictLookup_isSome_iff {d : Dict} {k : String} :
    ((dictLookup d k).isSome = true) ↔ k ∈ dictKeys d := by
  rw [← lookup_isSome_iff_mem_keys]
  unfold dictLookup
  cases d.find? (fun p => p.1 == k) <;> simp

theorem dictLookup_eq_none_iff {d : Dict} {k : String} :
    dictLookup d k = none ↔ k ∉ dictKeys d := by
  rw [← dictLookup_isSome_iff]
  cases dictLookup d k <;> simp

theorem diffRows_nil (pid : Nat) (data : Dict) : diffRows pid data [] = ([], data) := rfl

theorem diffRows_cons_pos_some {pid : Nat} {data : Dict} {r : DataRow} {rs : List DataRow}
    {v : String} (hpar : r.parent_id = pid) (hl : dictLookup data r.name = some v) :
    diffRows pid data (r :: rs) =
      ({ r with value := v } :: (diffRows pid (dictErase data r.name) rs).1,
       (diffRows pid (dictErase data r.name) rs).2) := by
  simp [diffRows, hpar, hl]

theorem diffRows_cons_pos_none {pid : Nat} {data : Dict} {r : DataRow} {rs : List DataRow}
    (hpar : r.parent_id = pid) (hl : dictLookup data r.name = none) :
    diffRows pid data (r :: rs) = diffRows pid data rs := by
  simp [diffRows, hpar, hl]

theorem diffRows_cons_neg {pid : Nat} {data : Dict} {r : DataRow} {rs : List DataRow}
    (hpar : ¬r.parent_id = pid) :
    diffRows pid data (r :: rs) =
      (r :: (diffRows pid data rs).1, (diffRows pid data rs).2) := by
  simp [diffRows, hpar]

theorem diffRows_fst_cons_pos_some {pid : Nat} {data : Dict} {r : DataRow} {rs : List DataRow}
    {v : String} (hpar : r.parent_id = pid) (hl : dictLookup data r.name = some v) :
    (diffRows pid data (r :: rs)).1 =
      { r with value := v } :: (diffRows pid (dictErase data r.name) rs).1 := by
  rw [diffRows_cons_pos_some hpar hl]

theorem diffRows_snd_cons_pos_some {pid : Nat} {data : Dict} {r : DataRow} {rs : List DataRow}
    {v : String} (hpar : r.parent_id = pid) (hl : dictLookup data r.name = some v) :
    (diffRows pid data (r :: rs)).2 = (diffRows pid (dictErase data r.name) rs).2 := by
  rw [diffRows_cons_pos_some hpar hl]

theorem diffRows_fst_cons_neg {pid : Nat} {data : Dict} {r : DataRow} {rs : List DataRow}
    (hpar : ¬r.parent_id = pid) :
    (diffRows pid data (r :: rs)).1 = r :: (diffRows pid data rs).1 := by
  rw [diffRows_cons_neg hpar]

theorem diffRows_snd_cons_neg {pid : Nat} {data : Dict} {r : DataRow} {rs : List DataRow}
    (hpar : ¬r.parent_id = pid) :
    (diffRows pid data (r :: rs)).2 = (diffRows pid data rs).2 := by
  rw [diffRows_cons_neg hpar]

/-! ### Characterization of the extension-row diff -/

theorem diffRows_leftover_sublist (pid : Nat) :
    ∀ (rows : List DataRow) (data : Dict), (diffRows pid data rows).2.Sublist data := by
  intro rows
  induction rows with
  | nil => intro data; simp [diffRows_nil]
  | cons r0 rs ih =>
    intro data
    by_cases hpar : r0.parent_id = pid
    · cases hl : dictLookup data r0.name with
      | some v =>
        rw [diffRows_cons_pos_some hpar hl]
        exact (ih (dictErase data r0.name)).trans (List.filter_sublist data)
      | none =>
        rw [diffRows_cons_pos_none hpar hl]
        exact ih data
    · rw [diffRows_cons_neg hpar]
      exact ih data

theorem diffRows_kept_lookup (pid : Nat) :
    ∀ (rows : List DataRow) (data : Dict) (r : DataRow),
      r ∈ (diffRows pid data rows).1 → r.parent_id = pid →
      dictLookup data r.name = some r.value := by
  intro rows
  induction rows with
  | nil => intro data r hr; simp [diffRows_nil] at hr
  | cons r0 rs ih =>
    intro data r hr hpid
    by_cases hpar : r0.parent_id = pid
    · cases hl : dictLookup data r0.name with
      | some v =>
        rw [diffRows_cons_pos_some hpar hl] at hr
        rcases List.mem_cons.mp hr with heq | hmem
        · rw [heq]
          simpa using hl
        · have h2 := ih (dictErase data r0.name) r hmem hpid
          have hne : r.name ≠ r0.name := by
            intro hcon
            rw [hcon, dictLookup_dictErase_self] at h2
            exact Option.noConfusion h2
          rw [dictLookup_dictErase_ne data hne] at h2
          exact h2
      | none =>
        rw [diffRows_cons_pos_none hpar hl] at hr
        exact ih data r hr hpid
    · rw [diffRows_cons_neg hpar] at hr
      rcases List.mem_cons.mp hr with heq | hmem
      · exact absurd (heq ▸ hpid) hpar
      · exact ih data r hmem hpid

theorem diffRows_kept_names_nodup (pid : Nat) :
    ∀ (rows : List DataRow) (data : Dict),
      (((diffRows pid data rows).1.filter (fun r => r.parent_id == pid)).map
        (fun r => r.name)).Nodup := by
  intro rows
  induction rows with
  | nil => intro data; simp [diffRows_nil]
  | cons r0 rs ih =>
    intro data
    by_cases hpar : r0.parent_id = pid
    · cases hl : dictLookup data r0.name with
      | some v =>
        rw [diffRows_fst_cons_pos_some hpar hl, List.filter_cons]
        have hkeep : (({ r0 with value := v } : DataRow).parent_id == pid) = true := by
          simpa using hpar
        rw [if_pos hkeep, List.map_cons]
        refine List.nodup_cons.mpr ⟨?_, ih (dictErase data r0.name)⟩
        intro hmem
        rcases List.mem_map.mp hmem with ⟨r2, hr2, hname⟩
        rcases List.mem_filter.mp hr2 with ⟨hr2m, hr2p⟩
        have hr2pid : r2.parent_id = pid := by simpa using hr2p
        have h2 := diffRows_kept_lookup pid rs (dictErase data r0.name) r2 hr2m hr2pid
        rw [hname, dictLookup_dictErase_self] at h2
        exact Option.noConfusion h2
      | none =>
        rw [diffRows_cons_pos_none hpar hl]
        exact ih data
    · rw [diffRows_fst_cons_neg hpar, List.filter_cons]
      have hdrop : ((r0 : DataRow).parent_id == pid) = false := by
        simpa using hpar
      rw [hdrop]
      simp only [Bool.false_eq_true, if_false]
      exact ih data

theorem diffRows_kept_not_in_leftover (pid : Nat) :
    ∀ (rows : List DataRow) (data : Dict) (r : DataRow),
      r ∈ (diffRows pid data rows).1 → r.parent_id = pid →
      dictLookup (diffRows pid data rows).2 r.name = none := by
  intro rows
  induction rows with
  | nil => intro data r hr; simp [diffRows_nil] at hr
  | cons r0 rs ih =>
    intro data r hr hpid
    by_cases hpar : r0.parent_id = pid
    · cases hl : dictLookup data r0.name with
      | some v =>
        rw [diffRows_cons_pos_some hpar hl] at hr ⊢
        rcases List.mem_cons.mp hr with heq | hmem
        · rw [heq]
          rw [dictLookup_eq_none_iff]
          intro hmemk
          have hsub : (diffRows pid (dictErase data r0.name) rs).2.Sublist
              (dictErase data r0.name) := diffRows_leftover_sublist pid rs _
          have hkeys := (hsub.map Prod.fst).subset
          have hmem2 : ({ r0 with value := v } : DataRow).name ∈ dictKeys (dictErase data r0.name) :=
            hkeys hmemk
          have hnone : dictLookup (dictErase data r0.name) r0.name = none :=
            dictLookup_dictErase_self data r0.name
          exact (dictLookup_eq_none_iff.mp hnone) hmem2
        · exact ih (dictErase data r0.name) r hmem hpid
      | none =>
        rw [diffRows_cons_pos_none hpar hl] at hr ⊢
        exact ih data r hr hpid
    · rw [diffRows_cons_neg hpar] at hr ⊢
      rcases List.mem_cons.mp hr with heq | hmem
      · exact absurd (heq ▸ hpid) hpar
      · exact ih data r hmem hpid

theorem diffRows_coverage (pid : Nat) :
    ∀ (rows : List DataRow) (data : Dict) (kv : String × String), kv ∈ data →
      (∃ r, r ∈ (diffRows pid data rows).1 ∧ r.parent_id = pid ∧ r.name = kv.1) ∨
        kv.1 ∈ dictKeys (diffRows pid data rows).2 := by
  intro rows
  induction rows with
  | nil =>
    intro data kv hkv
    right
    rw [diffRows_nil]
    exact List.mem_map_of_mem Prod.fst hkv
  | cons r0 rs ih =>
    intro data kv hkv
    by_cases hpar : r0.parent_id = pid
    · cases hl : dictLookup data r0.name with
      | some v =>
        by_cases hk : kv.1 = r0.name
        · left
          refine ⟨{ r0 with value := v }, ?_, hpar, hk.symm⟩
          rw [diffRows_fst_cons_pos_some hpar hl]
          exact List.mem_cons_self _ _
        · have hkv2 : kv ∈ dictErase data r0.name := mem_dictErase_of_ne hkv hk
          rcases ih (dictErase data r0.name) kv hkv2 with ⟨r2, hr2, hp2, hn2⟩ | hmem
          · left
            refine ⟨r2, ?_, hp2, hn2⟩
            rw [diffRows_fst_cons_pos_some hpar hl]
            exact List.mem_cons_of_mem _ hr2
          · right
            rw [diffRows_snd_cons_pos_some hpar hl]
            exact hmem
      | none =>
        rw [diffRows_cons_pos_none hpar hl]
        exact ih data kv hkv
    · rcases ih data kv hkv with ⟨r2, hr2, hp2, hn2⟩ | hmem
      · left
        refine ⟨r2, ?_, hp2, hn2⟩
        rw [diffRows_fst_cons_neg hpar]
        exact List.mem_cons_of_mem _ hr2
      · right
        rw [diffRows_snd_cons_neg hpar]
        exact hmem

/-- When the side-table rows of parent `pid` realize the pending dict exactly
(every such row's key is pending with the row's value, their keys are distinct,
and every pending key appears), the diff loop changes nothing and leaves no
pending key. -/
theorem diff_consume (pid : Nat) :
    ∀ (rows : List DataRow) (data : Dict),
      (∀ r, r ∈ rows → r.parent_id = pid → dictLookup data r.name = some r.value) →
      ((rows.filter (fun r => r.parent_id == pid)).map (fun r => r.name)).Nodup →
      (∀ kv, kv ∈ data → ∃ r, r ∈ rows ∧ r.parent_id = pid ∧ r.name = kv.1) →
      diffRows pid data rows = (rows, []) := by
  intro rows
  induction rows with
  | nil =>
    intro data _ _ h3
    have hdata : data = [] := by
      rcases data with _ | ⟨kv, rest⟩
      · rfl
      · rcases h3 kv (List.mem_cons_self _ _) with ⟨r, hr, _, _⟩
        simp at hr
    rw [diffRows_nil, hdata]
  | cons r0 rs ih =>
    intro data h1 h2 h3
    by_cases hpar : r0.parent_id = pid
    · have hl : dictLookup data r0.name = some r0.value :=
        h1 r0 (List.mem_cons_self _ _) hpar
      rw [diffRows_cons_pos_some hpar hl]
      have hfilter : (r0 :: rs).filter (fun r => r.parent_id == pid) =
          r0 :: rs.filter (fun r => r.parent_id == pid) := by
        rw [List.filter_cons]
        rw [if_pos (by simpa using hpar)]
      rw [hfilter, List.map_cons] at h2
      have hnodup := List.nodup_cons.mp h2
      have hname_tail : ∀ r2, r2 ∈ rs → r2.parent_id = pid → r2.name ≠ r0.name := by
        intro r2 hr2 hp2 hcon
        apply hnodup.1
        rw [← hcon]
        exact List.mem_map_of_mem _ (List.mem_filter_of_mem hr2 (by simpa using hp2))
      have h1' : ∀ r, r ∈ rs → r.parent_id = pid →
          dictLookup (dictErase data r0.name) r.name = some r.value := by
        intro r hr hp
        rw [dictLookup_dictErase_ne data (hname_tail r hr hp)]
        exact h1 r (List.mem_cons_of_mem _ hr) hp
      have h3' : ∀ kv, kv ∈ dictErase data r0.name →
          ∃ r, r ∈ rs ∧ r.parent_id = pid ∧ r.name = kv.1 := by
        intro kv hkv
        have hne := ne_of_mem_dictErase hkv
        rcases h3 kv (mem_of_mem_dictErase hkv) with ⟨r, hr, hp, hn⟩
        rcases List.mem_cons.mp hr with heq | hmem
        · exact absurd (heq ▸ hn).symm hne
        · exact ⟨r, hmem, hp, hn⟩
      rw [ih (dictErase data r0.name) h1' hnodup.2 h3']
    · rw [diffRows_cons_neg hpar]
      have h1' : ∀ r, r ∈ rs → r.parent_id = pid → dictLookup data r.name = some r.value :=
        fun r hr hp => h1 r (List.mem_cons_of_mem _ hr) hp
      have h2' : ((rs.filter (fun r => r.parent_id == pid)).map (fun r => r.name)).Nodup := by
        have hfilter : (r0 :: rs).filter (fun r => r.parent_id == pid) =
            rs.filter (fun r => r.parent_id == pid) := by
          rw [List.filter_cons]
          have : (r0.parent_id == pid) = false := by simpa using hpar
          rw [this]
          simp only [Bool.false_eq_true, if_false]
        rw [hfilter] at h2
        exact h2
      have h3' : ∀ kv, kv ∈ data → ∃ r, r ∈ rs ∧ r.parent_id = pid ∧ r.name = kv.1 := by
        intro kv hkv
        rcases h3 kv hkv with ⟨r, hr, hp, hn⟩
        rcases List.mem_cons.mp hr with heq | hmem
        · exact absurd (heq ▸ hp) hpar
        · exact ⟨r, hmem, hp, hn⟩
      rw [ih data h1' h2' h3']

/-! ### mkNewRows lemmas -/

theorem mkNewRows_mem (pid : Nat) :
    ∀ (d : Dict) (next : Nat) (r : DataRow), r ∈ mkNewRows pid next d →
      r.parent_id = pid ∧ (r.name, r.value) ∈ d := by
  intro d
  induction d with
  | nil => intro next r hr; simp [mkNewRows] at hr
  | cons kv rest ih =>
    intro next r hr
    obtain ⟨k, v⟩ := kv
    rcases List.mem_cons.mp hr with heq | hmem
    · rw [heq]
      exact ⟨rfl, List.mem_cons_self _ _⟩
    · rcases ih (next + 1) r hmem with ⟨hp, hm⟩
      exact ⟨hp, List.mem_cons_of_mem _ hm⟩

theorem mkNewRows_map_name (pid : Nat) :
    ∀ (d : Dict) (next : Nat), (mkNewRows pid next d).map (fun r => r.name) = dictKeys d := by
  intro d
  induction d with
  | nil => intro next; rfl
  | cons kv rest ih =>
    intro next
    obtain ⟨k, v⟩ := kv
    simp only [mkNewRows, List.map_cons, dictKeys]
    rw [ih (next + 1)]
    rfl

theorem mkNewRows_filter_pos (pid : Nat) (d : Dict) (next : Nat) :
    (mkNewRows pid next d).filter (fun r => r.parent_id == pid) = mkNewRows pid next d := by
  rw [List.filter_eq_self]
  intro r hr
  have := (mkNewRows_mem pid d next r hr).1
  simpa using this

/-! ### Idempotence of the save path -/

theorem finishSave_entities (s : KindStore) (cfg : Config) (pid : Nat) :
    (finishSave s cfg pid).entities = s.entities := rfl

theorem finishSave_datas (s : KindStore) (cfg : Config) (pid : Nat) :
    (finishSave s cfg pid).datas =
      (diffRows pid cfg.config s.datas).1 ++
        mkNewRows pid s.dataNext (diffRows pid cfg.config s.datas).2 := rfl

theorem finishSave_dataNext (s : KindStore) (cfg : Config) (pid : Nat) :
    (finishSave s cfg pid).dataNext = s.dataNext + (diffRows pid cfg.config s.datas).2.length := rfl

theorem finishSave_stable {s : KindStore} {cfg : Config} {pid : Nat}
    (h : diffRows pid cfg.config s.datas = (s.datas, [])) : finishSave s cfg pid = s := by
  unfold finishSave
  rw [h]
  simp [mkNewRows]

theorem saveKS_of_find?_some (kind : Kind) (s : KindStore) (cfg : Config) (p0 : EntityRow)
    (h : s.entities.find? (fun r => r.name == cfg.name) = some p0) :
    saveKS kind s cfg =
      finishSave
        { s with
            entities :=
              updateFirst (fun r => r.name == cfg.name) (applyRefUpdates kind cfg) s.entities }
        cfg (applyRefUpdates kind cfg p0).id := by
  unfold saveKS
  rw [h]

theorem saveKS_of_find?_none (kind : Kind) (s : KindStore) (cfg : Config)
    (h : s.entities.find? (fun r => r.name == cfg.name) = none) :
    saveKS kind s cfg =
      finishSave
        { s with
            entities :=
              s.entities ++ [applyRefUpdates kind cfg { id := s.entNext, type := cfg.type, name := cfg.name }],
            entNext := s.entNext + 1 }
        cfg (applyRefUpdates kind cfg { id := s.entNext, type := cfg.type, name := cfg.name }).id := by
  unfold saveKS
  rw [h]

/-- After a save, running the diff again against the same mapping consumes every
key into an in-place no-op update and leaves nothing pending. -/
theorem diff_after_save {cfg : Config} (hnd : keysNodup cfg.config) (pid next : Nat)
    (rows : List DataRow) :
    diffRows pid cfg.config
        ((diffRows pid cfg.config rows).1 ++
          mkNewRows pid next (diffRows pid cfg.config rows).2) =
      ((diffRows pid cfg.config rows).1 ++
        mkNewRows pid next (diffRows pid cfg.config rows).2, []) := by
  apply diff_consume
  · intro r hr hp
    rcases List.mem_append.mp hr with hR | hN
    · exact diffRows_kept_lookup pid rows cfg.config r hR hp
    · rcases mkNewRows_mem pid (diffRows pid cfg.config rows).2 next r hN with ⟨_, hmem⟩
      have hLsub := diffRows_leftover_sublist pid rows cfg.config
      exact dictLookup_eq_some_of_mem_nodup hnd (hLsub.subset hmem)
  · rw [List.filter_append, List.map_append, mkNewRows_filter_pos, mkNewRows_map_name,
      List.nodup_append]
    refine ⟨diffRows_kept_names_nodup pid rows cfg.config, ?_, ?_⟩
    · have hLsub := diffRows_leftover_sublist pid rows cfg.config
      exact hnd.sublist (hLsub.map Prod.fst)
    · intro x hx hx2
      rcases List.mem_map.mp hx with ⟨r2, hr2, hn2⟩
      rcases List.mem_filter.mp hr2 with ⟨hr2m, hr2p⟩
      have hp2 : r2.parent_id = pid := by simpa using hr2p
      have hnone := diffRows_kept_not_in_leftover pid rows cfg.config r2 hr2m hp2
      rw [hn2] at hnone
      exact (dictLookup_eq_none_iff.mp hnone) hx2
  · intro kv hkv
    rcases diffRows_coverage pid rows cfg.config kv hkv with ⟨r2, hr2, hp2, hn2⟩ | hmemk
    · exact ⟨r2, List.mem_append_left _ hr2, hp2, hn2⟩
    · rw [← mkNewRows_map_name pid (diffRows pid cfg.config rows).2 next] at hmemk
      rcases List.mem_map.mp hmemk with ⟨r2, hr2, hn2⟩
      rcases mkNewRows_mem pid (diffRows pid cfg.config rows).2 next r2 hr2 with ⟨hp2, _⟩
      exact ⟨r2, List.mem_append_right _ hr2, hp2, hn2⟩

/-- Saving again into a store whose entity table already holds the (updated) row
as first name match is a no-op. -/
theorem saveKS_idem_core (kind : Kind) (cfg : Config) (hnd : keysNodup cfg.config)
    (s1 : KindStore) (p1 : EntityRow)
    (hfind : s1.entities.find? (fun r => r.name == cfg.name) = some p1)
    (hp1 : applyRefUpdates kind cfg p1 = p1) :
    saveKS kind (finishSave s1 cfg p1.id) cfg = finishSave s1 cfg p1.id := by
  have hfind2 : (finishSave s1 cfg p1.id).entities.find? (fun r => r.name == cfg.name) =
      some p1 := hfind
  rw [saveKS_of_find?_some kind (finishSave s1 cfg p1.id) cfg p1 hfind2]
  rw [hp1]
  rw [updateFirst_id_of_find? hfind2 hp1]
  have heta : ({ finishSave s1 cfg p1.id with
      entities := (finishSave s1 cfg p1.id).entities } : KindStore) = finishSave s1 cfg p1.id := rfl
  rw [heta]
  exact finishSave_stable (diff_after_save hnd p1.id s1.dataNext s1.datas)

/-- `__save_molns_object` is idempotent on any configuration object whose mapping
has distinct keys (always true of a Python dict). -/
theorem saveKS_idem (kind : Kind) (s : KindStore) (cfg : Config) (hnd : keysNodup cfg.config) :
    saveKS kind (saveKS kind s cfg) cfg = saveKS kind s cfg := by
  cases hf : s.entities.find? (fun r => r.name == cfg.name) with
  | some p0 =>
    have hpred0 := List.find?_some hf
    have hpredf : ((fun (r : EntityRow) => r.name == cfg.name)
        (applyRefUpdates kind cfg p0)) = true := by
      show ((applyRefUpdates kind cfg p0).name == cfg.name) = true
      rw [applyRefUpdates_name]
      exact hpred0
    have hfind1 : (updateFirst (fun r => r.name == cfg.name) (applyRefUpdates kind cfg)
        s.entities).find? (fun r => r.name == cfg.name) = some (applyRefUpdates kind cfg p0) :=
      find?_updateFirst_self hf hpredf
    rw [saveKS_of_find?_some kind s cfg p0 hf]
    exact saveKS_idem_core kind cfg hnd
      { s with
          entities :=
            updateFirst (fun r => r.name == cfg.name) (applyRefUpdates kind cfg) s.entities }
      (applyRefUpdates kind cfg p0) hfind1 (applyRefUpdates_idem kind cfg p0)
  | none =>
    have hfind1 : (s.entities ++
        [applyRefUpdates kind cfg { id := s.entNext, type := cfg.type, name := cfg.name }]).find?
          (fun r => r.name == cfg.name) =
        some (applyRefUpdates kind cfg { id := s.entNext, type := cfg.type, name := cfg.name }) := by
      rw [find?_append_none _ hf]
      apply List.find?_cons_of_pos
      show ((applyRefUpdates kind cfg _).name == cfg.name) = true
      rw [applyRefUpdates_name]
      simp
    rw [saveKS_of_find?_none kind s cfg hf]
    exact saveKS_idem_core kind cfg hnd
      { s with
          entities :=
            s.entities ++ [applyRefUpdates kind cfg { id := s.entNext, type := cfg.type, name := cfg.name }],
          entNext := s.entNext + 1 }
      (applyRefUpdates kind cfg { id := s.entNext, type := cfg.type, name := cfg.name })
      hfind1 (applyRefUpdates_idem kind cfg _)

theorem store_setStore (db : DB) (kind : Kind) (s : KindStore) :
    (db.setStore kind s).store kind = s := by
  cases kind <;> rfl

theorem setStore_setStore (db : DB) (kind : Kind) (s t : KindStore) :
    (db.setStore kind s).setStore kind t = db.setStore kind t := by
  cases kind <;> rfl

/-- `save_object` is idempotent (for mappings with distinct keys). -/
theorem save_object_idem (db : DB) (cfg : Config) (kind : Kind) (hnd : keysNodup cfg.config) :
    save_object (save_object db cfg kind) cfg kind = save_object db cfg kind := by
  unfold save_object
  rw [store_setStore, setStore_setStore, saveKS_idem kind (db.store kind) cfg hnd]

/-! ### The diff depends only on the parent's own rows -/

theorem diffRows_leftover_filter (pid : Nat) :
    ∀ (rows : List DataRow) (data : Dict),
      (diffRows pid data rows).2 =
        (diffRows pid data (rows.filter (fun r => r.parent_id == pid))).2 := by
  intro rows
  induction rows with
  | nil => intro data; rfl
  | cons r0 rs ih =>
    intro data
    by_cases hpar : r0.parent_id = pid
    · have hkeep : (r0 :: rs).filter (fun r => r.parent_id == pid) =
          r0 :: rs.filter (fun r => r.parent_id == pid) := by
        rw [List.filter_cons, if_pos (by simpa using hpar)]
      rw [hkeep]
      cases hl : dictLookup data r0.name with
      | some v =>
        rw [diffRows_snd_cons_pos_some hpar hl, diffRows_snd_cons_pos_some hpar hl]
        exact ih (dictErase data r0.name)
      | none =>
        rw [diffRows_cons_pos_none hpar hl, diffRows_cons_pos_none hpar hl]
        exact ih data
    · have hdrop : (r0 :: rs).filter (fun r => r.parent_id == pid) =
          rs.filter (fun r => r.parent_id == pid) := by
        rw [List.filter_cons]
        have : (r0.parent_id == pid) = false := by simpa using hpar
        rw [this]
        simp only [Bool.false_eq_true, if_false]
      rw [hdrop, diffRows_snd_cons_neg hpar]
      exact ih data

theorem diffRows_filter_pos (pid : Nat) :
    ∀ (rows : List DataRow) (data : Dict),
      (diffRows pid data rows).1.filter (fun r => r.parent_id == pid) =
        (diffRows pid data (rows.filter (fun r => r.parent_id == pid))).1 := by
  intro rows
  induction rows with
  | nil => intro data; rfl
  | cons r0 rs ih =>
    intro data
    by_cases hpar : r0.parent_id = pid
    · have hkeep : (r0 :: rs).filter (fun r => r.parent_id == pid) =
          r0 :: rs.filter (fun r => r.parent_id == pid) := by
        rw [List.filter_cons, if_pos (by simpa using hpar)]
      rw [hkeep]
      cases hl : dictLookup data r0.name with
      | some v =>
        rw [diffRows_fst_cons_pos_some hpar hl, diffRows_fst_cons_pos_some hpar hl]
        rw [List.filter_cons, if_pos (by simpa using hpar)]
        rw [ih (dictErase data r0.name)]
      | none =>
        rw [diffRows_cons_pos_none hpar hl, diffRows_cons_pos_none hpar hl]
        exact ih data
    · have hdrop : (r0 :: rs).filter (fun r => r.parent_id == pid) =
          rs.filter (fun r => r.parent_id == pid) := by
        rw [List.filter_cons]
        have : (r0.parent_id == pid) = false := by simpa using hpar
        rw [this]
        simp only [Bool.false_eq_true, if_false]
      rw [hdrop, diffRows_fst_cons_neg hpar]
      rw [List.filter_cons]
      have : (r0.parent_id == pid) = false := by simpa using hpar
      rw [this]
      simp only [Bool.false_eq_true, if_false]
      exact ih data

/-! ### Hydration helper lemmas -/

theorem hydrate_core_config {s : KindStore} {p : EntityRow} {c : Config}
    (h : hydrate_core s p = .ok c) :
    c.config = buildDict (s.datas.filter (fun r => r.parent_id == p.id)) := by
  unfold hydrate_core at h
  by_cases hv : p.type ∈ VALID_PROVIDER_TYPES
  · rw [if_pos hv] at h
    injection h with h2
    rw [← h2]
    rfl
  · rw [if_neg hv] at h
    exact Except.noConfusion h

theorem get_object_eq_data {db : DB} {kind : Kind} {nm : String} {p : EntityRow}
    (hf : (db.store kind).entities.find? (fun r => r.name == nm) = some p) :
    get_object db nm kind = get_object_data db kind p := by
  unfold get_object
  rw [hf]

theorem get_object_eq_notfound {db : DB} {kind : Kind} {nm : String}
    (hf : (db.store kind).entities.find? (fun r => r.name == nm) = none) :
    get_object db nm kind = .error (.datastore (kind.str ++ " " ++ nm ++ " not found")) := by
  unfold get_object
  rw [hf]

/-- A configuration object hydrated from the store by `get_object` (kind
Provider) has a mapping with distinct keys. -/
theorem get_object_provider_keysNodup {db : DB} {nm : String} {cfg : Config}
    (h : get_object db nm Kind.Provider = .ok cfg) : keysNodup cfg.config := by
  cases hf : (db.store Kind.Provider).entities.find? (fun r => r.name == nm) with
  | none =>
    rw [get_object_eq_notfound hf] at h
    exact Except.noConfusion h
  | some p =>
    rw [get_object_eq_data hf] at h
    unfold get_object_data at h
    cases hc : hydrate_core (db.store Kind.Provider) p with
    | error e =>
      rw [hc] at h
      have h2 : (Except.error e : Except PyErr Config) = .ok cfg := h
      exact Except.noConfusion h2
    | ok c0 =>
      rw [hc] at h
      have h2 : (Except.ok c0 : Except PyErr Config) = .ok cfg := h
      injection h2 with h3
      rw [← h3, hydrate_core_config hc]
      exact keysNodup_buildDict _

/-! ### create_object equation lemmas -/

theorem create_object_of_present {db : DB} {kind : Kind} {ptype nm : String}
    {pid cid : Option (Option Nat)} {p : EntityRow}
    (hf : (db.store kind).entities.find? (fun r => r.name == nm) = some p) :
    create_object db ptype nm kind pid cid =
      .error (.datastore (kind.str ++ " " ++ nm ++ " already exists with type")) := by
  unfold create_object
  rw [hf]

theorem create_object_of_absent {db : DB} {kind : Kind} {ptype nm : String}
    {pid cid : Option (Option Nat)}
    (hf : (db.store kind).entities.find? (fun r => r.name == nm) = none)
    (hv : ptype ∈ VALID_PROVIDER_TYPES) :
    create_object db ptype nm kind pid cid = .ok (Config.mk nm ptype [] pid cid none none) := by
  have h1 : create_object db ptype nm kind pid cid =
      (if ptype ∈ VALID_PROVIDER_TYPES then
        (Except.ok (Config.mk nm ptype [] pid cid none none) : Except PyErr Config)
      else .error (.datastore ("Unknown " ++ kind.str ++ " type " ++ ptype))) := by
    unfold create_object
    rw [hf]
  rw [h1, if_pos hv]

/-! ### The polling loop never terminates on an address that does not start with 1 -/

theorem loop_none_of_not_start (ip : String) (h : startsWith1 ip = false) :
    ∀ fuel, get_container_ip_address_loop ip fuel = none := by
  intro fuel
  induction fuel with
  | zero => rfl
  | succ n ih =>
    unfold get_container_ip_address_loop
    rw [h]
    simp only [Bool.false_eq_true, if_false]
    exact ih

/-! ## Claim theorems -/

/-- Claim C10: get_all_instances applies at most one filter, with fixed precedence
provider_id, then controller_id, then worker_group_id; a non-null provider_id
makes the other two arguments irrelevant, and all-null arguments return every
Instance row. -/
theorem claim_C10_instance_filter_precedence :
    ∀ (db : DB) (pid cid wid : Nat),
      (∀ c w : Option Nat, get_all_instances db (some pid) c w =
        db.instances.filter (fun i => i.provider_id == some pid)) ∧
      (∀ w : Option Nat, get_all_instances db none (some cid) w =
        db.instances.filter (fun i => i.controller_id == some cid)) ∧
      get_all_instances db none none (some wid) =
        db.instances.filter (fun i => i.worker_group_id == some wid) ∧
      get_all_instances db none none none = db.instances := by
  intro db pid cid wid
  exact ⟨fun c w => rfl, fun w => rfl, rfl, rfl⟩

/-- Claim C9 (code bug): the source calls inspect_container once, before the
while loop, and every iteration re-reads that same snapshot, so even though the
container reports the private-network address 172.17.0.2 from the next
inspection on (first conjunct), the function never terminates when the address
at call time was empty (second conjunct: no iteration bound makes it return). -/
theorem claim_C9_ip_polling :
    startsWith1 (inspectC9 1) = true ∧
    ∀ fuel : Nat, get_container_ip_address inspectC9 fuel = none := by
  constructor
  · rfl
  · intro fuel
    exact loop_none_of_not_start (inspectC9 0) rfl fuel

/-- Claim C8 (code bug): saving a RemoteJob always raises TypeError, because the
RemoteJob row constructor is passed the keyword controller_id, which is not a
column of the RemoteJob row class; the host-embedding logic is never reached. -/
theorem claim_C8_remote_job_save_crashes :
    (∀ (db : DB) (cfg : RemoteJobCfg),
      save_remote_job db cfg =
        .error (.typeError "controller_id is an invalid keyword argument for RemoteJob")) ∧
    "controller_id" ∈ save_remote_job_ctor_kwargs ∧
    "controller_id" ∉ remote_job_row_columns := by
  refine ⟨?_, by decide, by decide⟩
  intro db cfg
  unfold save_remote_job
  rw [if_neg (by decide)]

/-- Claim C4 (code bug): hydrating a persisted Controller whose provider_id is
dangling does not return an object with an absent provider back-reference; it
raises TypeError, because the back-reference call passes keyword id to
get_object_by_id, whose parameter is named obj_id, and TypeError is not caught
by the except DatastoreException handler.  (dbC4 has no Provider rows at all, so
provider_id 99 is dangling.) -/
theorem claim_C4_dangling_backref_crashes :
    get_object dbC4 "c1" Kind.Controller =
      .error (.typeError "get_object_by_id got an unexpected keyword argument id") ∧
    dbC4.provider.entities = [] := ⟨rfl, rfl⟩

/-- Claim C2 (amended): create_object returns an in-memory configuration object
whose name and type match the request and whose extension mapping is empty, but
it does not persist anything: get_object with the same name on the same
datastore raises NotFound instead of returning the object. -/
theorem claim_C2_create_then_get :
    ∀ (kind : Kind) (db : DB) (ptype nm : String) (pid cid : Option (Option Nat)),
      ptype ∈ VALID_PROVIDER_TYPES →
      (db.store kind).entities.find? (fun r => r.name == nm) = none →
      create_object db ptype nm kind pid cid =
          .ok (Config.mk nm ptype [] pid cid none none) ∧
        get_object db nm kind =
          .error (.datastore (kind.str ++ " " ++ nm ++ " not found")) := by
  intro kind db ptype nm pid cid hv hf
  exact ⟨create_object_of_absent hf hv, get_object_eq_notfound hf⟩

theorem claim_C2_create_then_get_witness :
    create_object dbEmpty "Docker" "x" Kind.Provider none none =
        .ok (Config.mk "x" "Docker" [] none none none none) ∧
      get_object dbEmpty "x" Kind.Provider =
        .error (.datastore ("Provider" ++ " " ++ "x" ++ " not found")) :=
  claim_C2_create_then_get Kind.Provider dbEmpty "Docker" "x" none none (by decide) rfl

/-- Claim C2 counterexample: on a fresh datastore, create_object succeeds but the
following get_object with the same name raises NotFound rather than returning
the created object, because create_object does not persist. -/
theorem claim_C2_counterexample :
    create_object dbEmpty "Docker" "x" Kind.Provider none none =
        .ok (Config.mk "x" "Docker" [] none none none none) ∧
      get_object dbEmpty "x" Kind.Provider =
        .error (.datastore "Provider x not found") := ⟨rfl, rfl⟩

/-- Claim C5 (amended): create_object raises AlreadyExists exactly when an entity
row with the name is already persisted; since create_object itself persists
nothing, the failure on a second create happens only after the first created
object has been saved (create, save, create fails). -/
theorem claim_C5_duplicate_create :
    ∀ (kind : Kind) (db : DB) (ptype nm : String),
      (∀ p, (db.store kind).entities.find? (fun r => r.name == nm) = some p →
        create_object db ptype nm kind none none =
          .error (.datastore (kind.str ++ " " ++ nm ++ " already exists with type"))) ∧
      (∀ cfg, (db.store kind).entities.find? (fun r => r.name == nm) = none →
        create_object db ptype nm kind none none = .ok cfg →
        create_object (save_object db cfg kind) ptype nm kind none none =
          .error (.datastore (kind.str ++ " " ++ nm ++ " already exists with type"))) := by
  intro kind db ptype nm
  constructor
  · intro p hf
    exact create_object_of_present hf
  · intro cfg hf hok
    have hname : cfg.name = nm := by
      have h1 : create_object db ptype nm kind none none =
          (if ptype ∈ VALID_PROVIDER_TYPES then
            (Except.ok (Config.mk nm ptype [] none none none none) : Except PyErr Config)
          else .error (.datastore ("Unknown " ++ kind.str ++ " type " ++ ptype))) := by
        unfold create_object
        rw [hf]
      rw [h1] at hok
      by_cases hv : ptype ∈ VALID_PROVIDER_TYPES
      · rw [if_pos hv] at hok
        injection hok with h2
        rw [← h2]
        rfl
      · rw [if_neg hv] at hok
        exact Except.noConfusion hok
    have hf2 : (db.store kind).entities.find? (fun r => r.name == cfg.name) = none := by
      rw [hname]
      exact hf
    have hent : ((save_object db cfg kind).store kind).entities =
        (db.store kind).entities ++
          [applyRefUpdates kind cfg
            { id := (db.store kind).entNext, type := cfg.type, name := cfg.name }] := by
      unfold save_object
      rw [store_setStore, saveKS_of_find?_none kind (db.store kind) cfg hf2]
      rfl
    apply create_object_of_present
    rw [hent, find?_append_none _ hf]
    apply List.find?_cons_of_pos
    show ((applyRefUpdates kind cfg
      { id := (db.store kind).entNext, type := cfg.type, name := cfg.name }).name == nm) = true
    rw [applyRefUpdates_name]
    show (cfg.name == nm) = true
    rw [hname]
    simp

theorem claim_C5_duplicate_create_witness :
    (create_object dbC3 "Docker" "x" Kind.Provider none none =
      .error (.datastore ("Provider" ++ " " ++ "x" ++ " already exists with type"))) ∧
    (create_object
        (save_object dbEmpty (Config.mk "y" "Docker" [] none none none none) Kind.Provider)
        "Docker" "y" Kind.Provider none none =
      .error (.datastore ("Provider" ++ " " ++ "y" ++ " already exists with type"))) :=
  ⟨(claim_C5_duplicate_create Kind.Provider dbC3 "Docker" "x").1
      { id := 1, type := "EC2", name := "x" } rfl,
   (claim_C5_duplicate_create Kind.Provider dbEmpty "Docker" "y").2
      (Config.mk "y" "Docker" [] none none none none) rfl rfl⟩

/-- Claim C5 counterexample: calling create_object twice with the same name on
the same fresh datastore does not fail on the second call — create_object does
not persist, so the second call (the same state) also returns the object. -/
theorem claim_C5_counterexample :
    create_object dbEmpty "Docker" "x" Kind.Provider none none =
        .ok (Config.mk "x" "Docker" [] none none none none) ∧
      create_object dbEmpty "Docker" "x" Kind.Provider none none ≠
        .error (.datastore "Provider x already exists with type") := by
  refine ⟨rfl, ?_⟩
  intro h
  have h2 : (Except.ok (Config.mk "x" "Docker" [] none none none none) :
      Except PyErr Config) = .error (.datastore "Provider x already exists with type") := h
  exact Except.noConfusion h2

/-- Claim C3 (amended): save_object is an upsert by name: when no entity row with
the config object's name exists, a new row with the config's name and type (and
the reference columns the kind has, when carried by the config) is appended;
when one exists, only its provider_id / controller_id columns are updated in
place (the first matching row is mutated, no second row is created) — its type
is left unchanged. -/
theorem claim_C3_upsert :
    ∀ (kind : Kind) (db : DB) (cfg : Config),
      ((db.store kind).entities.find? (fun r => r.name == cfg.name) = none →
        ((save_object db cfg kind).store kind).entities =
          (db.store kind).entities ++
            [applyRefUpdates kind cfg
              { id := (db.store kind).entNext, type := cfg.type, name := cfg.name }]) ∧
      (∀ p0, (db.store kind).entities.find? (fun r => r.name == cfg.name) = some p0 →
        ((save_object db cfg kind).store kind).entities =
          updateFirst (fun r => r.name == cfg.name) (applyRefUpdates kind cfg)
            (db.store kind).entities ∧
        ((save_object db cfg kind).store kind).entities.length =
          (db.store kind).entities.length ∧
        (applyRefUpdates kind cfg p0).type = p0.type ∧
        (applyRefUpdates kind cfg p0).name = p0.name) ∧
      (∀ (p : EntityRow) (v : Option Nat), cfg.provider_id = some v →
        kind.hasProviderCol = true → (applyRefUpdates kind cfg p).provider_id = v) ∧
      (∀ (p : EntityRow) (v : Option Nat), cfg.controller_id = some v →
        kind.hasControllerCol = true → (applyRefUpdates kind cfg p).controller_id = v) := by
  intro kind db cfg
  refine ⟨?_, ?_, ?_, ?_⟩
  · intro hf
    unfold save_object
    rw [store_setStore, saveKS_of_find?_none kind (db.store kind) cfg hf]
    rfl
  · intro p0 hf
    have hent : ((save_object db cfg kind).store kind).entities =
        updateFirst (fun r => r.name == cfg.name) (applyRefUpdates kind cfg)
          (db.store kind).entities := by
      unfold save_object
      rw [store_setStore, saveKS_of_find?_some kind (db.store kind) cfg p0 hf]
      rfl
    refine ⟨hent, ?_, applyRefUpdates_type kind cfg p0, applyRefUpdates_name kind cfg p0⟩
    rw [hent, updateFirst_length]
  · intro p v hp hcol
    cases hc : cfg.controller_id with
    | none => simp [applyRefUpdates, hp, hc, hcol]
    | some w => cases hcc : kind.hasControllerCol <;> simp [applyRefUpdates, hp, hc, hcol, hcc]
  · intro p v hc hcol
    cases hp : cfg.provider_id with
    | none => simp [applyRefUpdates, hp, hc, hcol]
    | some w => cases hpc : kind.hasProviderCol <;> simp [applyRefUpdates, hp, hc, hcol, hpc]

theorem claim_C3_upsert_witness :
    (((save_object dbEmpty cfgC3 Kind.Provider).store Kind.Provider).entities =
      (dbEmpty.store Kind.Provider).entities ++
        [applyRefUpdates Kind.Provider cfgC3
          { id := (dbEmpty.store Kind.Provider).entNext, type := cfgC3.type,
            name := cfgC3.name }]) ∧
    (((save_object dbC3 cfgC3 Kind.Provider).store Kind.Provider).entities =
        updateFirst (fun r => r.name == cfgC3.name) (applyRefUpdates Kind.Provider cfgC3)
          (dbC3.store Kind.Provider).entities ∧
      ((save_object dbC3 cfgC3 Kind.Provider).store Kind.Provider).entities.length =
        (dbC3.store Kind.Provider).entities.length ∧
      (applyRefUpdates Kind.Provider cfgC3 { id := 1, type := "EC2", name := "x" }).type =
        ({ id := 1, type := "EC2", name := "x" } : EntityRow).type ∧
      (applyRefUpdates Kind.Provider cfgC3 { id := 1, type := "EC2", name := "x" }).name =
        ({ id := 1, type := "EC2", name := "x" } : EntityRow).name) ∧
    (applyRefUpdates Kind.WorkerGroup cfgC3w { id := 9, type := "t", name := "n" }).provider_id =
      some 3 ∧
    (applyRefUpdates Kind.WorkerGroup cfgC3w { id := 9, type := "t", name := "n" }).controller_id =
      some 4 :=
  ⟨(claim_C3_upsert Kind.Provider dbEmpty cfgC3).1 rfl,
   (claim_C3_upsert Kind.Provider dbC3 cfgC3).2.1 { id := 1, type := "EC2", name := "x" } rfl,
   (claim_C3_upsert Kind.WorkerGroup dbEmpty cfgC3w).2.2.1
     { id := 9, type := "t", name := "n" } (some 3) rfl rfl,
   (claim_C3_upsert Kind.WorkerGroup dbEmpty cfgC3w).2.2.2
     { id := 9, type := "t", name := "n" } (some 4) rfl rfl⟩

/-- Claim C3 counterexample: saving a config object carrying type OpenStack over
a persisted row of type EC2 with the same name leaves the row's type EC2 — the
type field is not updated in place as the claim states (and no second row is
created). -/
theorem claim_C3_counterexample :
    (save_object dbC3 cfgC3 Kind.Provider).provider.entities =
        [{ id := 1, type := "EC2", name := "x" }] ∧
      cfgC3.type = "OpenStack" ∧ ("EC2" : String) ≠ "OpenStack" :=
  ⟨rfl, rfl, by decide⟩

/-- Claim C7: delete_object and delete_object_by_id raise NotFound when no
entity row with the given name or id exists for the kind; otherwise they delete
exactly the (first) matching entity row — one row fewer, the extension side
table untouched. -/
theorem claim_C7_delete :
    ∀ (kind : Kind) (db : DB) (nm : String) (oid : Nat),
      ((db.store kind).entities.find? (fun r => r.name == nm) = none →
        delete_object db nm kind =
          .error (.datastore (kind.str ++ " " ++ nm ++ " not found"))) ∧
      (∀ p, (db.store kind).entities.find? (fun r => r.name == nm) = some p →
        delete_object db nm kind =
          .ok (db.setStore kind
            { db.store kind with
                entities := (db.store kind).entities.eraseP (fun r => r.name == nm) }) ∧
        ((db.setStore kind
            { db.store kind with
                entities := (db.store kind).entities.eraseP (fun r => r.name == nm) }).store
            kind).datas = (db.store kind).datas ∧
        ((db.store kind).entities.eraseP (fun r => r.name == nm)).length + 1 =
          (db.store kind).entities.length) ∧
      ((db.store kind).entities.find? (fun r => r.id == oid) = none →
        delete_object_by_id db oid kind =
          .error (.datastore (kind.str ++ " not found"))) ∧
      (∀ p, (db.store kind).entities.find? (fun r => r.id == oid) = some p →
        delete_object_by_id db oid kind =
          .ok (db.setStore kind
            { db.store kind with
                entities := (db.store kind).entities.eraseP (fun r => r.id == oid) }) ∧
        ((db.store kind).entities.eraseP (fun r => r.id == oid)).length + 1 =
          (db.store kind).entities.length) := by
  intro kind db nm oid
  refine ⟨?_, ?_, ?_, ?_⟩
  · intro hf
    unfold delete_object
    rw [hf]
  · intro p hf
    refine ⟨?_, ?_, eraseP_succ_length hf⟩
    · unfold delete_object
      rw [hf]
    · rw [store_setStore]
  · intro hf
    unfold delete_object_by_id
    rw [hf]
  · intro p hf
    refine ⟨?_, eraseP_succ_length hf⟩
    unfold delete_object_by_id
    rw [hf]

theorem claim_C7_delete_witness :
    (delete_object dbC3 "zz" Kind.Provider =
      .error (.datastore ("Provider" ++ " " ++ "zz" ++ " not found"))) ∧
    (delete_object dbC3 "x" Kind.Provider =
      .ok (dbC3.setStore Kind.Provider
        { dbC3.store Kind.Provider with
            entities := (dbC3.store Kind.Provider).entities.eraseP (fun r => r.name == "x") })) ∧
    (delete_object_by_id dbC3 9999 Kind.Provider =
      .error (.datastore ("Provider" ++ " not found"))) ∧
    (delete_object_by_id dbC3 1 Kind.Provider =
      .ok (dbC3.setStore Kind.Provider
        { dbC3.store Kind.Provider with
            entities := (dbC3.store Kind.Provider).entities.eraseP (fun r => r.id == 1) })) :=
  ⟨(claim_C7_delete Kind.Provider dbC3 "zz" 9999).1 rfl,
   ((claim_C7_delete Kind.Provider dbC3 "x" 9999).2.1
     { id := 1, type := "EC2", name := "x" } rfl).1,
   (claim_C7_delete Kind.Provider dbC3 "zz" 9999).2.2.1 rfl,
   ((claim_C7_delete Kind.Provider dbC3 "zz" 1).2.2.2
     { id := 1, type := "EC2", name := "x" } rfl).1⟩

/-- Claim C6 (amended): for a persisted Provider, hydrating it with get_object
and saving the result back twice in a row leaves the persisted state identical
to saving it once (for Controller and WorkerGroup the get step itself raises;
see the back-reference keyword defect of claim C4). -/
theorem claim_C6_save_idempotent :
    ∀ (db : DB) (nm : String) (cfg : Config),
      get_object db nm Kind.Provider = .ok cfg →
      save_object (save_object db cfg Kind.Provider) cfg Kind.Provider =
        save_object db cfg Kind.Provider := by
  intro db nm cfg h
  exact save_object_idem db cfg Kind.Provider (get_object_provider_keysNodup h)

theorem claim_C6_save_idempotent_witness :
    get_object dbC6w "p1" Kind.Provider =
        .ok (Config.mk "p1" "Docker" [("k", "v")] none none none none) ∧
      save_object
          (save_object dbC6w (Config.mk "p1" "Docker" [("k", "v")] none none none none)
            Kind.Provider)
          (Config.mk "p1" "Docker" [("k", "v")] none none none none) Kind.Provider =
        save_object dbC6w (Config.mk "p1" "Docker" [("k", "v")] none none none none)
          Kind.Provider :=
  ⟨rfl,
   claim_C6_save_idempotent dbC6w "p1"
     (Config.mk "p1" "Docker" [("k", "v")] none none none none) rfl⟩

/-- Claim C6 counterexample: for a persisted WorkerGroup, the get step of the
claimed get-then-save-twice sequence itself raises TypeError (the back-reference
keyword defect), so the sequence never reaches a save. -/
theorem claim_C6_counterexample :
    get_object dbC6 "wg" Kind.WorkerGroup =
      .error (.typeError "get_object_by_id got an unexpected keyword argument id") := rfl

/-- Claim C1: extension-mapping diffing on save is correct for every kind: for an
entity persisted with extension mapping a=1, b=2 (two side-table rows), saving a
config object with the same name and mapping b=3, c=4 leaves the side-table rows
of that parent equal to exactly the mapping b=3, c=4 — the row for a is deleted,
the row for b keeps its row id and gets value 3 in place, and a fresh row (next
sequence id) is inserted for c. -/
theorem claim_C1_extension_diffing :
    ∀ (kind : Kind) (db : DB) (p : EntityRow) (nm t a b c : String) (ida idb : Nat)
      (pidAttr cidAttr : Option (Option Nat)),
      (db.store kind).entities.find? (fun r => r.name == nm) = some p →
      (db.store kind).datas.filter (fun r => r.parent_id == p.id) =
        [{ id := ida, parent_id := p.id, name := a, value := "1" },
         { id := idb, parent_id := p.id, name := b, value := "2" }] →
      a ≠ b → a ≠ c → b ≠ c →
      (((save_object db (Config.mk nm t [(b, "3"), (c, "4")] pidAttr cidAttr none none)
            kind).store kind).datas.filter (fun r => r.parent_id == p.id) =
          [{ id := idb, parent_id := p.id, name := b, value := "3" },
           { id := (db.store kind).dataNext, parent_id := p.id, name := c, value := "4" }]) ∧
        buildDict
            (((save_object db (Config.mk nm t [(b, "3"), (c, "4")] pidAttr cidAttr none none)
              kind).store kind).datas.filter (fun r => r.parent_id == p.id)) =
          [(b, "3"), (c, "4")] := by
  intro kind db p nm t a b c ida idb pidAttr cidAttr hfind hrows hab hac hbc
  have hla : dictLookup [(b, "3"), (c, "4")] a = none := by
    rw [dictLookup_cons]
    rw [if_neg (fun h => hab h.symm)]
    rw [dictLookup_cons]
    rw [if_neg (fun h => hac h.symm)]
    rfl
  have hlb : dictLookup [(b, "3"), (c, "4")] b = some "3" := by
    rw [dictLookup_cons, if_pos rfl]
  have herase : dictErase [(b, "3"), (c, "4")] b = [(c, "4")] := by
    rw [dictErase_cons, if_pos rfl, dictErase_cons, if_neg (fun h => hbc h.symm)]
    rfl
  have hfull : diffRows p.id [(b, "3"), (c, "4")]
      [{ id := ida, parent_id := p.id, name := a, value := "1" },
       { id := idb, parent_id := p.id, name := b, value := "2" }] =
      ([{ id := idb, parent_id := p.id, name := b, value := "3" }], [(c, "4")]) := by
    rw [diffRows_cons_pos_none
      (show ({ id := ida, parent_id := p.id, name := a, value := "1" } : DataRow).parent_id = p.id
        from rfl) hla]
    rw [diffRows_cons_pos_some
      (show ({ id := idb, parent_id := p.id, name := b, value := "2" } : DataRow).parent_id = p.id
        from rfl) hlb]
    rw [diffRows_nil]
    show (([{ id := idb, parent_id := p.id, name := b, value := "3" }],
            dictErase [(b, "3"), (c, "4")] b) : List DataRow × Dict) =
        (([{ id := idb, parent_id := p.id, name := b, value := "3" }], [(c, "4")]) :
          List DataRow × Dict)
    rw [herase]
  have hsave : ((save_object db (Config.mk nm t [(b, "3"), (c, "4")] pidAttr cidAttr none none)
      kind).store kind).datas =
      (diffRows p.id [(b, "3"), (c, "4")] (db.store kind).datas).1 ++
        mkNewRows p.id (db.store kind).dataNext
          (diffRows p.id [(b, "3"), (c, "4")] (db.store kind).datas).2 := by
    unfold save_object
    rw [store_setStore]
    rw [saveKS_of_find?_some kind (db.store kind)
      (Config.mk nm t [(b, "3"), (c, "4")] pidAttr cidAttr none none) p hfind]
    rw [finishSave_datas, applyRefUpdates_id]
    rfl
  have hmain : ((save_object db (Config.mk nm t [(b, "3"), (c, "4")] pidAttr cidAttr none none)
      kind).store kind).datas.filter (fun r => r.parent_id == p.id) =
      [{ id := idb, parent_id := p.id, name := b, value := "3" },
       { id := (db.store kind).dataNext, parent_id := p.id, name := c, value := "4" }] := by
    rw [hsave, List.filter_append, diffRows_filter_pos, diffRows_leftover_filter, hrows,
      hfull, mkNewRows_filter_pos]
    rfl
  refine ⟨hmain, ?_⟩
  rw [hmain]
  have h1 : dictInsert [] b "3" = [(b, "3")] := rfl
  have hcnot : c ∉ dictKeys [(b, "3")] := by
    intro hmem
    simp [dictKeys] at hmem
    exact hbc hmem.symm
  have h2 : dictInsert [(b, "3")] c "4" = [(b, "3"), (c, "4")] := by
    rw [dictInsert_of_not_mem "4" hcnot]
    rfl
  unfold buildDict
  simp only [List.foldl_cons, List.foldl_nil]
  show dictInsert (dictInsert [] b "3") c "4" = [(b, "3"), (c, "4")]
  rw [h1, h2]

theorem claim_C1_extension_diffing_witness :
    (((save_object dbC1 (Config.mk "x" "Docker" [("b", "3"), ("c", "4")] none none none none)
          Kind.Provider).store Kind.Provider).datas.filter (fun r => r.parent_id == (1 : Nat)) =
        [{ id := 2, parent_id := 1, name := "b", value := "3" },
         { id := 3, parent_id := 1, name := "c", value := "4" }]) ∧
      buildDict
          (((save_object dbC1 (Config.mk "x" "Docker" [("b", "3"), ("c", "4")] none none none none)
            Kind.Provider).store Kind.Provider).datas.filter (fun r => r.parent_id == (1 : Nat))) =
        [("b", "3"), ("c", "4")] :=
  claim_C1_extension_diffing Kind.Provider dbC1 { id := 1, type := "Docker", name := "x" }
    "x" "Docker" "a" "b" "c" 1 2 none none rfl rfl (by decide) (by decide) (by decide)
